import Mathlib

/-!
Verification of the pillid identifier library (src/lib.rs).

Strings are modelled as lists of bytes (`List Nat`, each entry a UTF-8 byte
of the Rust `str`).  The fixed-size Rust buffers are modelled as byte lists
of the corresponding length.  `CStr::from_ptr(..).to_str().unwrap()`
(the source's `str_from_bytes`) is modelled as the logical content of the
given buffer up to its first zero byte; this is faithful only when a zero
byte is present in the buffer — with a zero-free buffer (reachable through
an accepted zero-free full 32-byte prefix) the real code reads past the
allocation, which is undefined behavior.  Theorems about the rendering and
the prefix accessor therefore carry the `definedPfx` hypothesis (a zero
byte inside the stored prefix buffer), restricting them to defined
executions.  Fallible operations return `Except`/`Option`; `none` on the
`From<String>` path models the `unwrap` panic of the error branch.

Names containing the substring "prefix" from the source are rendered with
"pfx" here (e.g. `set_pfx` for `set_prefix`, `PFX_LENGTH` for
`PREFIX_LENGTH`, `PfxTooLong` for the `PrefixTooLong` error variant).
-/

set_option maxRecDepth 8192

/-- Source item `PREFIX_BYTES` from src/lib.rs: the capacity of the prefix buffer. -/
def PFX_BYTES : Nat := 32

/-- Source item `PREFIX_LENGTH` from src/lib.rs. -/
def PFX_LENGTH : Nat := PFX_BYTES

/-- Source item `TIMESTAMP_BYTES` from src/lib.rs. -/
def TIMESTAMP_BYTES : Nat := 8

/-- Source item `TIMESTAMP_LENGTH` from src/lib.rs: base-62 digit count for the timestamp. -/
def TIMESTAMP_LENGTH : Nat := 6

/-- Source item `RANDOMNESS_BYTES` from src/lib.rs. -/
def RANDOMNESS_BYTES : Nat := 16

/-- Source item `RANDOM_LENGTH` from src/lib.rs: base-62 digit count for the random field. -/
def RANDOM_LENGTH : Nat := 22

/-- Source item `CHARSET` from src/lib.rs: the bytes of
`b"0123456789ABCDEFGHIJKLMNOPQRSTUVWXYZabcdefghijklmnopqrstuvwxyz"`. -/
def CHARSET : List Nat :=
  [48, 49, 50, 51, 52, 53, 54, 55, 56, 57,
   65, 66, 67, 68, 69, 70, 71, 72, 73, 74, 75, 76, 77, 78, 79, 80,
   81, 82, 83, 84, 85, 86, 87, 88, 89, 90,
   97, 98, 99, 100, 101, 102, 103, 104, 105, 106, 107, 108, 109, 110,
   111, 112, 113, 114, 115, 116, 117, 118, 119, 120, 121, 122]

/-- Source item `MAX_LENGTH_PILLID` from src/lib.rs. -/
def MAX_LENGTH_PILLID : Nat := PFX_LENGTH + TIMESTAMP_LENGTH + RANDOM_LENGTH

/-- The `Pillid` value type from src/lib.rs: a fixed buffer of
`MAX_LENGTH_PILLID + 1` bytes.  Every constructor in the source produces a
list of exactly that length; equality is whole-buffer equality as in the
derived Rust `PartialEq`. -/
structure Pillid where
  bytes : List Nat
deriving DecidableEq

/-- Source item `str_from_bytes` from src/lib.rs: the logical content of a
buffer, read up to (excluding) its first zero byte, as `CStr::from_ptr`
does.  Faithful only for buffers that contain a zero byte: on a zero-free
buffer the source reads out of bounds (undefined behavior), while this
model stops at the end of the buffer.  Theorems that reach the accessor or
the renderer on the fixed prefix buffer assume `definedPfx`. -/
def str_from_bytes (bytes : List Nat) : List Nat :=
  bytes.takeWhile (fun c => c != 0)

/-- Source item `Display for Pillid` / the `to_text` operation: logical content of the
buffer. -/
def Pillid.toText (p : Pillid) : List Nat :=
  str_from_bytes p.bytes

/-- Source item `Pillid::from_str` from src/lib.rs: rejects inputs of byte length
`>= MAX_LENGTH_PILLID`, otherwise copies the input into a zero-initialized
`MAX_LENGTH_PILLID + 1` byte buffer. -/
def from_str (s : List Nat) : Option Pillid :=
  if MAX_LENGTH_PILLID ≤ s.length then none
  else some ⟨s ++ List.replicate (MAX_LENGTH_PILLID + 1 - s.length) 0⟩

/-- Source item `From<String> for Pillid` from src/lib.rs: `Pillid::from_str(&s).unwrap()`.
`none` models the panic of `unwrap` on the error branch. -/
def pillidFromString (s : List Nat) : Option Pillid :=
  from_str s

/-- The `Error` enum from src/lib.rs (variant `PrefixTooLong`). -/
inductive PillidError where
  | PfxTooLong
deriving DecidableEq

/-- Result of `Deserialize for Pillid`: an error returned by the explicit
length guard, a successful value, or a panic raised by the inner
`Pillid::from(s)` (`from_str(..).unwrap()`). -/
inductive DeserResult where
  | ok (p : Pillid)
  | err
  | panicked
deriving DecidableEq

/-- Source item `Deserialize for Pillid` from src/lib.rs: rejects strings of byte length
`> MAX_LENGTH_PILLID` with a custom error, then calls `Pillid::from(s)`,
which unwraps `from_str` (panicking on its error branch). -/
def Pillid.deserialize (s : List Nat) : DeserResult :=
  if MAX_LENGTH_PILLID < s.length then DeserResult.err
  else
    match from_str s with
    | some p => DeserResult.ok p
    | none => DeserResult.panicked

/-- The `PillidBuilder` struct from src/lib.rs.  `pfx` holds the fixed
32-byte prefix buffer when set. -/
structure PillidBuilder where
  pfx : Option (List Nat)
  timestamp : List Nat
  random : List Nat
deriving DecidableEq

/-- Source item `Default for PillidBuilder`: no prefix, zero timestamp, zero random. -/
def PillidBuilder.default : PillidBuilder :=
  ⟨none, List.replicate TIMESTAMP_BYTES 0, List.replicate RANDOMNESS_BYTES 0⟩

/-- Source item `u64::from_be_bytes` / `u128::from_be_bytes`: big-endian interpretation
of a byte array as an unsigned integer. -/
def beBytesToNat (bs : List Nat) : Nat :=
  bs.foldl (fun acc b => acc * 256 + b) 0

/-- Source item `u128_to_base62_str` from src/lib.rs (inside `Display for PillidBuilder`):
writes, most-significant first, the low-order `len` base-62 digits of `n`
into the output buffer (`output_buffer[i] = CHARSET[n % 62]; n /= 62` for
`i` from `len - 1` down to `0`). -/
def u128_to_base62_str : Nat → Nat → List Nat
  | _, 0 => []
  | n, l + 1 => u128_to_base62_str (n / 62) l ++ [CHARSET.getD (n % 62) 0]

/-- Source item `Display for PillidBuilder` from src/lib.rs: optional `prefix_`, then
the 6 timestamp digits and the 22 random digits.  The digit groups are
written into zero-initialized buffers of one extra byte and read back with
`str_from_bytes`, exactly as the source does. -/
def PillidBuilder.render (b : PillidBuilder) : List Nat :=
  (match b.pfx with
   | some p => str_from_bytes p ++ [95]
   | none => []) ++
  str_from_bytes
    (u128_to_base62_str (beBytesToNat b.timestamp) TIMESTAMP_LENGTH ++ [0]) ++
  str_from_bytes
    (u128_to_base62_str (beBytesToNat b.random) RANDOM_LENGTH ++ [0])

/-- Source item `PillidBuilder::set_prefix` from src/lib.rs: rejects prefixes longer
than `PREFIX_LENGTH` bytes, otherwise stores the bytes left-aligned in a
zeroed 32-byte buffer. -/
def PillidBuilder.set_pfx (b : PillidBuilder) (p : List Nat) :
    Except PillidError PillidBuilder :=
  if PFX_LENGTH < p.length then Except.error PillidError.PfxTooLong
  else Except.ok { b with pfx := some (p ++ List.replicate (PFX_BYTES - p.length) 0) }

/-- Source item `PillidBuilder::with_prefix` from src/lib.rs. -/
def PillidBuilder.with_pfx (b : PillidBuilder) (p : List Nat) :
    Except PillidError PillidBuilder :=
  PillidBuilder.set_pfx b p

/-- Source item `PillidBuilder::prefix` accessor from src/lib.rs: the stored buffer's
logical content. -/
def PillidBuilder.pfxStr (b : PillidBuilder) : Option (List Nat) :=
  b.pfx.map str_from_bytes

/-- Source item `PillidBuilder::with_timestamp` from src/lib.rs. -/
def PillidBuilder.with_timestamp (b : PillidBuilder) (t : List Nat) : PillidBuilder :=
  { b with timestamp := t }

/-- Source item `PillidBuilder::with_random` from src/lib.rs. -/
def PillidBuilder.with_random (b : PillidBuilder) (r : List Nat) : PillidBuilder :=
  { b with random := r }

/-- Source item `PillidBuilder::build` from src/lib.rs: render to text, copy into a
zeroed `MAX_LENGTH_PILLID + 1` byte buffer. -/
def PillidBuilder.build (b : PillidBuilder) : Pillid :=
  ⟨PillidBuilder.render b ++
    List.replicate (MAX_LENGTH_PILLID + 1 - (PillidBuilder.render b).length) 0⟩

/-- Lexicographic comparison of byte lists: the order of the derived Rust
`Ord` on byte arrays/slices. -/
def bytesLt : List Nat → List Nat → Bool
  | [], [] => false
  | [], _ :: _ => true
  | _ :: _, [] => false
  | a :: as, b :: bs => if a < b then true else if a = b then bytesLt as bs else false

/-- The derived `Ord for Pillid`: whole-buffer lexicographic comparison. -/
def Pillid.lt (x y : Pillid) : Bool :=
  bytesLt x.bytes y.bytes

/-- Decodes a base-62 digit-symbol sequence back to a number (digit value =
index in `CHARSET`), most-significant first. -/
def decode62 (ds : List Nat) : Nat :=
  ds.foldl (fun acc d => acc * 62 + CHARSET.indexOf d) 0

/-- Bytes of an ASCII Lean string literal (used only for ASCII literals,
where the code points are the UTF-8 bytes). -/
def strBytes (s : String) : List Nat :=
  s.data.map Char.toNat

/-- All bytes of the list are ASCII. -/
def allAscii (l : List Nat) : Bool :=
  l.all (fun c => decide (c < 128))

/-- The well-formedness `set_prefix` establishes: a stored prefix buffer has
exactly `PREFIX_BYTES` bytes. -/
def PillidBuilder.wf (b : PillidBuilder) : Bool :=
  match b.pfx with
  | some p => p.length == PFX_BYTES
  | none => true

/-- The stored prefix bytes are all ASCII (trivially true with no prefix). -/
def PillidBuilder.asciiPfx (b : PillidBuilder) : Bool :=
  match b.pfx with
  | some p => allAscii p
  | none => true

/-- The string has a zero byte. -/
def hasZero : List Nat → Bool
  | [] => false
  | c :: t => if c = 0 then true else hasZero t

/-- The stored prefix buffer contains a zero byte (trivially true with no
prefix).  This is exactly the condition under which the source's
`CStr::from_ptr` scans of the 32-byte prefix buffer stay inside the buffer
and are defined behavior; with a zero-free full buffer the real code reads
out of bounds, and this model makes no claims there.  Equivalently: the
logical prefix length is at most 31. -/
def PillidBuilder.definedPfx (b : PillidBuilder) : Bool :=
  match b.pfx with
  | some p => hasZero p
  | none => true

/-- The prefix segment of the rendered text: `prefix_` when a prefix is set,
empty otherwise (the first `write!` of `Display for PillidBuilder`). -/
def pfxPart (b : PillidBuilder) : List Nat :=
  match b.pfx with
  | some p => str_from_bytes p ++ [95]
  | none => []

deriving instance DecidableEq for Except

theorem hasZero_false : ∀ (s : List Nat), hasZero s = false → ∀ c ∈ s, c ≠ 0 := by
  intro s
  induction s with
  | nil => intro _ c hc; cases hc
  | cons a t ih =>
    intro h c hc
    unfold hasZero at h
    by_cases ha : a = 0
    · rw [if_pos ha] at h; cases h
    · rw [if_neg ha] at h
      rw [List.mem_cons] at hc
      rcases hc with rfl | hc
      · exact ha
      · exact ih h c hc

theorem allAscii_iff (l : List Nat) : allAscii l = true ↔ ∀ c ∈ l, c < 128 := by
  simp [allAscii]

theorem str_from_bytes_cons (a : Nat) (l : List Nat) :
    str_from_bytes (a :: l) = if a = 0 then [] else a :: str_from_bytes l := by
  by_cases h : a = 0
  · simp [str_from_bytes, List.takeWhile_cons, h]
  · simp [str_from_bytes, List.takeWhile_cons, h]

theorem mem_str_from_bytes : ∀ (l : List Nat) (c : Nat), c ∈ str_from_bytes l → c ≠ 0 ∧ c ∈ l := by
  intro l
  induction l with
  | nil => intro c hc; cases hc
  | cons a t ih =>
    intro c hc
    rw [str_from_bytes_cons] at hc
    by_cases h : a = 0
    · rw [if_pos h] at hc; cases hc
    · rw [if_neg h] at hc
      rw [List.mem_cons] at hc
      rcases hc with rfl | hc
      · exact ⟨h, List.mem_cons_self _ _⟩
      · obtain ⟨h1, h2⟩ := ih c hc
        exact ⟨h1, List.mem_cons_of_mem _ h2⟩

theorem str_from_bytes_all : ∀ (l : List Nat), (∀ c ∈ l, c ≠ 0) → str_from_bytes l = l := by
  intro l
  induction l with
  | nil => intro _; rfl
  | cons a t ih =>
    intro h
    rw [str_from_bytes_cons, if_neg (h a (List.mem_cons_self _ _)),
      ih (fun c hc => h c (List.mem_cons_of_mem _ hc))]

theorem str_from_bytes_append_zeros : ∀ (s : List Nat) (k : Nat),
    str_from_bytes (s ++ List.replicate k 0) = str_from_bytes s := by
  intro s
  induction s with
  | nil =>
    intro k
    cases k with
    | zero => rfl
    | succ k =>
      rw [List.nil_append, List.replicate_succ, str_from_bytes_cons, if_pos rfl]
      rfl
  | cons a t ih =>
    intro k
    rw [List.cons_append, str_from_bytes_cons, ih k, str_from_bytes_cons]

theorem length_str_from_bytes_le : ∀ (l : List Nat), (str_from_bytes l).length ≤ l.length := by
  intro l
  induction l with
  | nil => exact Nat.le_refl _
  | cons a t ih =>
    rw [str_from_bytes_cons]
    by_cases h : a = 0
    · rw [if_pos h]; simp
    · rw [if_neg h]; simpa using ih

theorem length_str_from_bytes_lt : ∀ (l : List Nat), hasZero l = true →
    (str_from_bytes l).length < l.length := by
  intro l
  induction l with
  | nil => intro h; cases h
  | cons a t ih =>
    intro h
    rw [str_from_bytes_cons]
    by_cases ha : a = 0
    · rw [if_pos ha]
      simp
    · rw [if_neg ha]
      unfold hasZero at h
      rw [if_neg ha] at h
      have := ih h
      simp only [List.length_cons]
      omega

theorem charset_getD_facts : ∀ i < 62, CHARSET.getD i 0 ≠ 0 ∧ CHARSET.getD i 0 < 128 := by decide

theorem charset_indexOf_getD : ∀ i < 62, CHARSET.indexOf (CHARSET.getD i 0) = i := by decide

theorem u128_length : ∀ (w n : Nat), (u128_to_base62_str n w).length = w := by
  intro w
  induction w with
  | zero => intro n; rfl
  | succ l ih =>
    intro n
    show (u128_to_base62_str (n / 62) l ++ [CHARSET.getD (n % 62) 0]).length = l + 1
    rw [List.length_append, ih]
    rfl

theorem u128_mem : ∀ (w n : Nat), ∀ c ∈ u128_to_base62_str n w, c ≠ 0 ∧ c < 128 := by
  intro w
  induction w with
  | zero => intro n c hc; cases hc
  | succ l ih =>
    intro n c hc
    have hc' : c ∈ u128_to_base62_str (n / 62) l ++ [CHARSET.getD (n % 62) 0] := hc
    rw [List.mem_append] at hc'
    rcases hc' with h | h
    · exact ih (n / 62) c h
    · rw [List.mem_singleton] at h
      subst h
      exact charset_getD_facts (n % 62) (Nat.mod_lt n (by decide))

theorem decode62_append_digit (ds : List Nat) (c : Nat) :
    decode62 (ds ++ [c]) = decode62 ds * 62 + CHARSET.indexOf c := by
  unfold decode62
  rw [List.foldl_append]
  rfl

theorem decode62_u128 : ∀ (w n : Nat), decode62 (u128_to_base62_str n w) = n % 62 ^ w := by
  intro w
  induction w with
  | zero => intro n; simp [decode62, u128_to_base62_str, Nat.pow_zero, Nat.mod_one]
  | succ l ih =>
    intro n
    show decode62 (u128_to_base62_str (n / 62) l ++ [CHARSET.getD (n % 62) 0]) = n % 62 ^ (l + 1)
    rw [decode62_append_digit, ih, charset_indexOf_getD (n % 62) (Nat.mod_lt n (by decide))]
    have h1 : 62 ^ (l + 1) = 62 * 62 ^ l := by rw [pow_succ, Nat.mul_comm]
    rw [h1, Nat.mod_mul]
    omega

theorem bytesLt_append_same : ∀ (P u v : List Nat), bytesLt (P ++ u) (P ++ v) = bytesLt u v := by
  intro P
  induction P with
  | nil => intro u v; rfl
  | cons a t ih =>
    intro u v
    show (if a < a then true else if a = a then bytesLt (t ++ u) (t ++ v) else false) = bytesLt u v
    rw [if_neg (lt_irrefl a), if_pos rfl, ih]

theorem bytesLt_append_of_lt : ∀ (x y u v : List Nat), x.length = y.length →
    bytesLt x y = true → bytesLt (x ++ u) (y ++ v) = true := by
  intro x
  induction x with
  | nil =>
    intro y u v hlen h
    cases y with
    | nil => cases h
    | cons b bs => simp at hlen
  | cons a t ih =>
    intro y u v hlen h
    cases y with
    | nil => simp at hlen
    | cons b bs =>
      show (if a < b then true else if a = b then bytesLt (t ++ u) (bs ++ v) else false) = true
      have h' : (if a < b then true else if a = b then bytesLt t bs else false) = true := h
      by_cases hab : a < b
      · rw [if_pos hab]
      · rw [if_neg hab] at h' ⊢
        by_cases heq : a = b
        · rw [if_pos heq] at h' ⊢
          exact ih bs u v (by simpa using hlen) h'
        · rw [if_neg heq] at h'
          cases h'

theorem pfxPart_congr (b1 b2 : PillidBuilder) (h : b1.pfx = b2.pfx) :
    pfxPart b1 = pfxPart b2 := by
  unfold pfxPart
  rw [h]

theorem pfxPart_ne_zero (b : PillidBuilder) : ∀ c ∈ pfxPart b, c ≠ 0 := by
  intro c hc
  unfold pfxPart at hc
  cases hp : b.pfx with
  | none => rw [hp] at hc; cases hc
  | some p =>
    rw [hp] at hc
    simp only [List.mem_append, List.mem_singleton] at hc
    rcases hc with hc | rfl
    · exact (mem_str_from_bytes p c hc).1
    · decide

theorem pfxPart_ascii (b : PillidBuilder) (ha : PillidBuilder.asciiPfx b = true) :
    ∀ c ∈ pfxPart b, c < 128 := by
  intro c hc
  unfold pfxPart at hc
  unfold PillidBuilder.asciiPfx at ha
  cases hp : b.pfx with
  | none => rw [hp] at hc; cases hc
  | some p =>
    rw [hp] at hc
    rw [hp] at ha
    simp only [List.mem_append, List.mem_singleton] at hc
    rcases hc with hc | rfl
    · exact (allAscii_iff p).mp ha c (mem_str_from_bytes p c hc).2
    · decide

theorem pfxPart_length_defined (b : PillidBuilder) (hw : PillidBuilder.wf b = true)
    (hd : PillidBuilder.definedPfx b = true) :
    (pfxPart b).length ≤ PFX_LENGTH := by
  cases hp : b.pfx with
  | none =>
    have hpp : pfxPart b = [] := by
      unfold pfxPart
      rw [hp]
    rw [hpp]
    decide
  | some p =>
    have hl : p.length = 32 := by
      unfold PillidBuilder.wf at hw
      rw [hp] at hw
      simpa using hw
    have hz : hasZero p = true := by
      unfold PillidBuilder.definedPfx at hd
      rw [hp] at hd
      exact hd
    have h1 : (str_from_bytes p).length < p.length := length_str_from_bytes_lt p hz
    have hpp : pfxPart b = str_from_bytes p ++ [95] := by
      unfold pfxPart
      rw [hp]
    rw [hpp, List.length_append, List.length_singleton]
    show (str_from_bytes p).length + 1 ≤ 32
    omega

theorem render_eq (b : PillidBuilder) :
    PillidBuilder.render b =
      pfxPart b ++
        u128_to_base62_str (beBytesToNat b.timestamp) TIMESTAMP_LENGTH ++
        u128_to_base62_str (beBytesToNat b.random) RANDOM_LENGTH := by
  have h1 : str_from_bytes
      (u128_to_base62_str (beBytesToNat b.timestamp) TIMESTAMP_LENGTH ++ [0]) =
      u128_to_base62_str (beBytesToNat b.timestamp) TIMESTAMP_LENGTH := by
    have hz := str_from_bytes_append_zeros
      (u128_to_base62_str (beBytesToNat b.timestamp) TIMESTAMP_LENGTH) 1
    rw [show (List.replicate 1 0 : List Nat) = [0] from rfl] at hz
    rw [hz, str_from_bytes_all _ (fun c hc => (u128_mem _ _ c hc).1)]
  have h2 : str_from_bytes
      (u128_to_base62_str (beBytesToNat b.random) RANDOM_LENGTH ++ [0]) =
      u128_to_base62_str (beBytesToNat b.random) RANDOM_LENGTH := by
    have hz := str_from_bytes_append_zeros
      (u128_to_base62_str (beBytesToNat b.random) RANDOM_LENGTH) 1
    rw [show (List.replicate 1 0 : List Nat) = [0] from rfl] at hz
    rw [hz, str_from_bytes_all _ (fun c hc => (u128_mem _ _ c hc).1)]
  unfold PillidBuilder.render pfxPart
  rw [h1, h2]

theorem render_length (b : PillidBuilder) :
    (PillidBuilder.render b).length = (pfxPart b).length + (TIMESTAMP_LENGTH + RANDOM_LENGTH) := by
  rw [render_eq, List.length_append, List.length_append, u128_length, u128_length]
  omega

theorem render_ne_zero (b : PillidBuilder) : ∀ c ∈ PillidBuilder.render b, c ≠ 0 := by
  intro c hc
  rw [render_eq] at hc
  simp only [List.mem_append] at hc
  rcases hc with (hc | hc) | hc
  · exact pfxPart_ne_zero b c hc
  · exact (u128_mem _ _ c hc).1
  · exact (u128_mem _ _ c hc).1

theorem render_ascii (b : PillidBuilder) (ha : PillidBuilder.asciiPfx b = true) :
    ∀ c ∈ PillidBuilder.render b, c < 128 := by
  intro c hc
  rw [render_eq] at hc
  simp only [List.mem_append] at hc
  rcases hc with (hc | hc) | hc
  · exact pfxPart_ascii b ha c hc
  · exact (u128_mem _ _ c hc).2
  · exact (u128_mem _ _ c hc).2

theorem build_bytes (b : PillidBuilder) :
    Pillid.bytes (PillidBuilder.build b) =
      PillidBuilder.render b ++
        List.replicate (MAX_LENGTH_PILLID + 1 - (PillidBuilder.render b).length) 0 := rfl

theorem toText_build (b : PillidBuilder) :
    Pillid.toText (PillidBuilder.build b) = PillidBuilder.render b := by
  unfold Pillid.toText
  rw [build_bytes, str_from_bytes_append_zeros, str_from_bytes_all _ (render_ne_zero b)]

/-- C5: the builder with prefix "prefixed", timestamp bytes all 0xFF and
random bytes all 0xFF renders exactly the text
"prefixed_16AHYF7n42DGM5Tflk9n8mt7Fhc7" (the low 6 base-62 digits of
`u64::MAX` followed by the 22 base-62 digits of `u128::MAX`). -/
theorem c5_concrete_render :
    Except.map
      (fun b => Pillid.toText (PillidBuilder.build
        (PillidBuilder.with_random
          (PillidBuilder.with_timestamp b (List.replicate 8 255)) (List.replicate 16 255))))
      (PillidBuilder.with_pfx PillidBuilder.default (strBytes "prefixed")) =
    Except.ok (strBytes "prefixed_16AHYF7n42DGM5Tflk9n8mt7Fhc7") := by decide

/-- C9: the default-constructed builder (no prefix, zero timestamp, zero
random) renders exactly "000000" followed by 22 copies of the zero symbol,
28 characters in total, with no leading underscore. -/
theorem c9_default_render :
    PillidBuilder.render PillidBuilder.default = strBytes "000000" ++ List.replicate 22 48 ∧
    (PillidBuilder.render PillidBuilder.default).length = 28 := by decide

/-- C3 (code evaluated at the failing input): `parse` of a 60-byte string
fails with TooLong, yet `Deserialize` only rejects strings longer than 60
bytes, so a 60-byte string slips past its guard and the inner
`Pillid::from(s)` panics instead of returning an error. -/
theorem c3_deserialize_panics_at_60 :
    from_str (List.replicate 60 97) = none ∧
    Pillid.deserialize (List.replicate 60 97) = DeserResult.panicked ∧
    Pillid.deserialize (List.replicate 61 97) = DeserResult.err ∧
    Pillid.deserialize (List.replicate 59 97) =
      DeserResult.ok ⟨List.replicate 59 97 ++ List.replicate 2 0⟩ := by decide

/-- C6: for every value `n` and width `w`, the fixed-width base-62 encoder
outputs exactly `w` symbols, and the symbol sequence decodes (most
significant digit first, digit value = index in `CHARSET`) to `n mod 62^w`:
modular truncation at the output width. -/
theorem c6_base62_encoder (n w : Nat) :
    (u128_to_base62_str n w).length = w ∧
    decode62 (u128_to_base62_str n w) = n % 62 ^ w :=
  ⟨u128_length w n, decode62_u128 w n⟩

/-- C10: the infallible `From<String>` conversion panics exactly for inputs
of byte length at least `MAX_LENGTH_PILLID` (60); below that bound it is
total and never panics.  `isNone` models the panic of the `unwrap`. -/
theorem c10_fromString_panic_boundary (s : List Nat) :
    (pillidFromString s).isNone = decide (MAX_LENGTH_PILLID ≤ s.length) := by
  unfold pillidFromString from_str
  by_cases h : MAX_LENGTH_PILLID ≤ s.length
  · rw [if_pos h]
    simp [h]
  · rw [if_neg h]
    simp [h]

/-- C1 (amended): parsing the text rendering round-trips for every
identifier built from a builder whose rendered text is shorter than
`MAX_LENGTH_PILLID` (60) bytes, and for every identifier obtained by a
successful parse of a string with no zero byte. -/
theorem c1_roundtrip :
    (∀ b : PillidBuilder, (PillidBuilder.render b).length < MAX_LENGTH_PILLID →
      from_str (Pillid.toText (PillidBuilder.build b)) = some (PillidBuilder.build b)) ∧
    (∀ s : List Nat, ∀ v : Pillid, hasZero s = false → from_str s = some v →
      from_str (Pillid.toText v) = some v) := by
  constructor
  · intro b hb
    rw [toText_build]
    show from_str (PillidBuilder.render b) = some (PillidBuilder.build b)
    unfold from_str
    rw [if_neg (by omega)]
    rfl
  · intro s v hs hv
    unfold from_str at hv
    by_cases hlen : MAX_LENGTH_PILLID ≤ s.length
    · rw [if_pos hlen] at hv
      cases hv
    · rw [if_neg hlen] at hv
      have hv' : v = ⟨s ++ List.replicate (MAX_LENGTH_PILLID + 1 - s.length) 0⟩ :=
        (Option.some_injective _ hv).symm
      subst hv'
      have ht : Pillid.toText ⟨s ++ List.replicate (MAX_LENGTH_PILLID + 1 - s.length) 0⟩ = s := by
        unfold Pillid.toText
        show str_from_bytes (s ++ List.replicate (MAX_LENGTH_PILLID + 1 - s.length) 0) = s
        rw [str_from_bytes_append_zeros, str_from_bytes_all s (hasZero_false s hs)]
      rw [ht]
      unfold from_str
      rw [if_neg hlen]

/-- C1 counterexample: a builder whose accepted 31-byte prefix renders to a
60-byte text; parsing the rendering of the built identifier fails with
TooLong instead of returning the identifier. -/
theorem c1_counterexample :
    PillidBuilder.set_pfx PillidBuilder.default (List.replicate 31 97) =
      Except.ok { pfx := some (List.replicate 31 97 ++ List.replicate 1 0),
                  timestamp := List.replicate 8 0, random := List.replicate 16 0 } ∧
    from_str (Pillid.toText (PillidBuilder.build
      { pfx := some (List.replicate 31 97 ++ List.replicate 1 0),
        timestamp := List.replicate 8 0, random := List.replicate 16 0 })) = none := by decide

theorem c1_witness :
    (PillidBuilder.render PillidBuilder.default).length < MAX_LENGTH_PILLID ∧
    from_str (Pillid.toText (PillidBuilder.build PillidBuilder.default)) =
      some (PillidBuilder.build PillidBuilder.default) ∧
    hasZero [97] = false ∧
    from_str [97] = some ⟨[97] ++ List.replicate 60 0⟩ ∧
    from_str (Pillid.toText (⟨[97] ++ List.replicate 60 0⟩ : Pillid)) =
      some ⟨[97] ++ List.replicate 60 0⟩ :=
  ⟨by decide, c1_roundtrip.1 PillidBuilder.default (by decide), by decide, by decide,
   c1_roundtrip.2 [97] ⟨[97] ++ List.replicate 60 0⟩ (by decide) (by decide)⟩

/-- C2 (amended): for every string `p` of byte length at most
`PREFIX_LENGTH` (32), `with_prefix`/`set_prefix` succeeds, storing `p`
left-aligned in a zeroed 32-byte buffer; when moreover `p` is shorter than
32 bytes and contains no zero byte — so that the stored buffer keeps a zero
terminator and the accessor's `CStr` scan is defined behavior — the
`prefix()` accessor afterwards returns exactly `p` (including the empty
string); for every `p` of byte length above 32 it fails with PrefixTooLong.
(What `prefix()` returns after storing a zero-free 32-byte prefix is
undefined behavior in the source and outside this model.) -/
theorem c2_with_pfx :
    (∀ b : PillidBuilder, ∀ p : List Nat, p.length ≤ PFX_LENGTH →
      PillidBuilder.set_pfx b p =
        Except.ok { b with pfx := some (p ++ List.replicate (PFX_BYTES - p.length) 0) }) ∧
    (∀ b : PillidBuilder, ∀ p : List Nat, p.length < PFX_LENGTH → hasZero p = false →
      Except.map PillidBuilder.pfxStr (PillidBuilder.set_pfx b p) = Except.ok (some p)) ∧
    (∀ b : PillidBuilder, ∀ p : List Nat, PFX_LENGTH < p.length →
      PillidBuilder.set_pfx b p = Except.error PillidError.PfxTooLong) := by
  refine ⟨fun b p hlen => ?_, fun b p hlen hz => ?_, fun b p h => ?_⟩
  · unfold PillidBuilder.set_pfx
    rw [if_neg (by omega)]
  · unfold PillidBuilder.set_pfx
    rw [if_neg (by omega)]
    show Except.ok (PillidBuilder.pfxStr
      { b with pfx := some (p ++ List.replicate (PFX_BYTES - p.length) 0) }) = _
    unfold PillidBuilder.pfxStr
    show Except.ok (some (str_from_bytes (p ++ List.replicate (PFX_BYTES - p.length) 0))) = _
    rw [str_from_bytes_append_zeros, str_from_bytes_all p (hasZero_false p hz)]
  · unfold PillidBuilder.set_pfx
    rw [if_pos h]

/-- C2 counterexample: the one-byte string consisting of a single zero byte
is accepted by `with_prefix`, but `prefix()` afterwards returns the empty
string, not the original string. -/
theorem c2_counterexample :
    Except.map PillidBuilder.pfxStr (PillidBuilder.set_pfx PillidBuilder.default [0]) =
      Except.ok (some []) ∧
    decide (Except.map PillidBuilder.pfxStr (PillidBuilder.set_pfx PillidBuilder.default [0]) =
      Except.ok (some [0])) = false := by decide

theorem c2_witness :
    ([97] : List Nat).length ≤ PFX_LENGTH ∧
    PillidBuilder.set_pfx PillidBuilder.default [97] =
      Except.ok { PillidBuilder.default with
                  pfx := some ([97] ++ List.replicate 31 0) } ∧
    ([97] : List Nat).length < PFX_LENGTH ∧ hasZero [97] = false ∧
    Except.map PillidBuilder.pfxStr (PillidBuilder.set_pfx PillidBuilder.default [97]) =
      Except.ok (some [97]) ∧
    PFX_LENGTH < (List.replicate 33 97).length ∧
    PillidBuilder.set_pfx PillidBuilder.default (List.replicate 33 97) =
      Except.error PillidError.PfxTooLong :=
  ⟨by decide, c2_with_pfx.1 PillidBuilder.default [97] (by decide),
   by decide, by decide,
   c2_with_pfx.2.1 PillidBuilder.default [97] (by decide) (by decide),
   by decide, c2_with_pfx.2.2 PillidBuilder.default (List.replicate 33 97) (by decide)⟩

theorem render_bounds (b : PillidBuilder) (hw : PillidBuilder.wf b = true)
    (hd : PillidBuilder.definedPfx b = true) :
    (PillidBuilder.render b).length ≤ MAX_LENGTH_PILLID ∧
    (PillidBuilder.asciiPfx b = true → allAscii (PillidBuilder.render b) = true) := by
  have h1 := pfxPart_length_defined b hw hd
  have hr : (PillidBuilder.render b).length = (pfxPart b).length + 28 := render_length b
  refine ⟨?_, fun ha => (allAscii_iff _).mpr (render_ascii b ha)⟩
  show (PillidBuilder.render b).length ≤ 60
  have : (pfxPart b).length ≤ 32 := h1
  omega

/-- C4 (amended): for every well-formed builder whose stored prefix buffer
contains a zero byte — i.e. logical prefix length at most 31, the only
builders whose rendering is defined behavior in the source, since a
zero-free full 32-byte prefix makes the `CStr` scan read out of bounds —
the rendered text has byte length at most `MAX_LENGTH_PILLID` = 60 and is
ASCII whenever the stored prefix bytes are ASCII.  `with_prefix` also
accepts non-ASCII UTF-8 prefixes, which render non-ASCII. -/
theorem c4_render_length_ascii (b : PillidBuilder) (hw : PillidBuilder.wf b = true)
    (hd : PillidBuilder.definedPfx b = true) :
    (PillidBuilder.render b).length ≤ MAX_LENGTH_PILLID ∧
    (PillidBuilder.asciiPfx b = true → allAscii (PillidBuilder.render b) = true) :=
  render_bounds b hw hd

/-- C4 counterexample: the two-byte UTF-8 character U+00E9 is a zero-free
non-ASCII string accepted by `with_prefix` (the stored 32-byte buffer keeps
thirty zero bytes, so every buffer read is defined); the resulting rendered
text contains the byte 195 and is not ASCII, falsifying the claimed "the
rendered text is ASCII". -/
theorem c4_counterexample :
    Except.map PillidBuilder.pfxStr (PillidBuilder.set_pfx PillidBuilder.default [195, 169]) =
      Except.ok (some [195, 169]) ∧
    allAscii (PillidBuilder.render
      { pfx := some ([195, 169] ++ List.replicate 30 0),
        timestamp := List.replicate 8 0,
        random := List.replicate 16 0 }) = false := by decide

theorem c4_witness :
    PillidBuilder.wf PillidBuilder.default = true ∧
    PillidBuilder.definedPfx PillidBuilder.default = true ∧
    (PillidBuilder.render PillidBuilder.default).length ≤ MAX_LENGTH_PILLID :=
  ⟨by decide, by decide,
   (c4_render_length_ascii PillidBuilder.default (by decide) (by decide)).1⟩

/-- C7 (amended): buffer invariant of identifier values.  Every identifier
from `build()` of a well-formed builder whose stored prefix buffer contains
a zero byte (logical prefix length at most 31 — the only builders whose
rendering is defined behavior in the source; a zero-free full 32-byte
prefix makes the `CStr` scan read out of bounds) has its buffer equal to
its logical content followed by zeros, no zero byte inside the logical
content, content length at most `L - 1` = 60, and ASCII content whenever
the prefix bytes are ASCII.  Every identifier from a successful parse has
no zero byte inside the logical content, content length at most 59,
trailing bytes all zero when the parsed string had no zero byte, and ASCII
content when the parsed string was ASCII. -/
theorem c7_buffer_invariant :
    (∀ b : PillidBuilder, PillidBuilder.wf b = true →
      PillidBuilder.definedPfx b = true →
      Pillid.bytes (PillidBuilder.build b) =
        Pillid.toText (PillidBuilder.build b) ++
          List.replicate (MAX_LENGTH_PILLID + 1 -
            (Pillid.toText (PillidBuilder.build b)).length) 0 ∧
      (∀ c ∈ Pillid.toText (PillidBuilder.build b), c ≠ 0) ∧
      (Pillid.toText (PillidBuilder.build b)).length ≤ MAX_LENGTH_PILLID ∧
      (PillidBuilder.asciiPfx b = true →
        allAscii (Pillid.toText (PillidBuilder.build b)) = true)) ∧
    (∀ s : List Nat, ∀ v : Pillid, from_str s = some v →
      (∀ c ∈ Pillid.toText v, c ≠ 0) ∧
      (Pillid.toText v).length ≤ MAX_LENGTH_PILLID - 1 ∧
      (hasZero s = false →
        Pillid.bytes v = Pillid.toText v ++
          List.replicate (MAX_LENGTH_PILLID + 1 - (Pillid.toText v).length) 0) ∧
      (allAscii s = true → allAscii (Pillid.toText v) = true)) := by
  constructor
  · intro b hw hd
    rw [toText_build, build_bytes]
    obtain ⟨h1, h2⟩ := render_bounds b hw hd
    exact ⟨rfl, render_ne_zero b, h1, h2⟩
  · intro s v hv
    unfold from_str at hv
    by_cases hlen : MAX_LENGTH_PILLID ≤ s.length
    · rw [if_pos hlen] at hv
      cases hv
    · rw [if_neg hlen] at hv
      have hv' : v = ⟨s ++ List.replicate (MAX_LENGTH_PILLID + 1 - s.length) 0⟩ :=
        (Option.some_injective _ hv).symm
      subst hv'
      have ht : Pillid.toText ⟨s ++ List.replicate (MAX_LENGTH_PILLID + 1 - s.length) 0⟩ =
          str_from_bytes s := by
        unfold Pillid.toText
        exact str_from_bytes_append_zeros s _
      rw [ht]
      refine ⟨fun c hc => (mem_str_from_bytes s c hc).1, ?_, fun hz => ?_, fun ha => ?_⟩
      · have hle := length_str_from_bytes_le s
        have hlen' : s.length < 60 := by
          revert hlen
          unfold MAX_LENGTH_PILLID PFX_LENGTH PFX_BYTES TIMESTAMP_LENGTH RANDOM_LENGTH
          omega
        show (str_from_bytes s).length ≤ 59
        omega
      · rw [str_from_bytes_all s (hasZero_false s hz)]
      · exact (allAscii_iff _).mpr
          (fun c hc => (allAscii_iff s).mp ha c (mem_str_from_bytes s c hc).2)

/-- C7 counterexample, entirely inside the defined domain (both parsed
strings are shorter than 60 bytes, so every buffer keeps zero bytes and no
out-of-bounds read occurs): parsing the two-byte UTF-8 string for U+00E9
succeeds and yields a populated content that is not ASCII, and parsing the
three-byte string "a\0b" succeeds but leaves the non-zero byte 98 after the
one-byte logical content, so the bytes beyond the populated content are not
all zero.  Both falsify the claimed invariant for parse-produced values. -/
theorem c7_counterexample :
    from_str [195, 169] = some ⟨[195, 169] ++ List.replicate 59 0⟩ ∧
    allAscii (Pillid.toText ⟨[195, 169] ++ List.replicate 59 0⟩) = false ∧
    from_str [97, 0, 98] = some ⟨[97, 0, 98] ++ List.replicate 58 0⟩ ∧
    Pillid.toText ⟨[97, 0, 98] ++ List.replicate 58 0⟩ = [97] ∧
    decide (Pillid.bytes ⟨[97, 0, 98] ++ List.replicate 58 0⟩ =
      [97] ++ List.replicate 60 0) = false := by decide

theorem c7_witness :
    PillidBuilder.wf PillidBuilder.default = true ∧
    PillidBuilder.definedPfx PillidBuilder.default = true ∧
    Pillid.bytes (PillidBuilder.build PillidBuilder.default) =
      Pillid.toText (PillidBuilder.build PillidBuilder.default) ++
        List.replicate (MAX_LENGTH_PILLID + 1 -
          (Pillid.toText (PillidBuilder.build PillidBuilder.default)).length) 0 :=
  ⟨by decide, by decide,
   (c7_buffer_invariant.1 PillidBuilder.default (by decide) (by decide)).1⟩

/-- C8: for two builders with the same prefix field (or both without one),
if the 6-digit base-62 encoding of the first builder's timestamp is
lexicographically smaller than that of the second, the first built
identifier orders strictly before the second under the derived whole-buffer
ordering, regardless of the random components. -/
theorem c8_timestamp_ordering (b1 b2 : PillidBuilder)
    (hp : b1.pfx = b2.pfx)
    (ht : bytesLt
        (u128_to_base62_str (beBytesToNat b1.timestamp) TIMESTAMP_LENGTH)
        (u128_to_base62_str (beBytesToNat b2.timestamp) TIMESTAMP_LENGTH) = true) :
    Pillid.lt (PillidBuilder.build b1) (PillidBuilder.build b2) = true := by
  unfold Pillid.lt
  rw [build_bytes b1, build_bytes b2]
  rw [render_eq b1, render_eq b2, pfxPart_congr b1 b2 hp]
  simp only [List.append_assoc]
  rw [bytesLt_append_same]
  exact bytesLt_append_of_lt _ _ _ _ (by rw [u128_length, u128_length]) ht

theorem c8_witness :
    PillidBuilder.default.pfx =
      (PillidBuilder.with_timestamp PillidBuilder.default
        (List.replicate 7 0 ++ [1])).pfx ∧
    bytesLt
      (u128_to_base62_str (beBytesToNat PillidBuilder.default.timestamp) TIMESTAMP_LENGTH)
      (u128_to_base62_str (beBytesToNat
        (PillidBuilder.with_timestamp PillidBuilder.default
          (List.replicate 7 0 ++ [1])).timestamp) TIMESTAMP_LENGTH) = true ∧
    Pillid.lt (PillidBuilder.build PillidBuilder.default)
      (PillidBuilder.build (PillidBuilder.with_timestamp PillidBuilder.default
        (List.replicate 7 0 ++ [1]))) = true :=
  ⟨by decide, by decide,
   c8_timestamp_ordering PillidBuilder.default
     (PillidBuilder.with_timestamp PillidBuilder.default (List.replicate 7 0 ++ [1]))
     (by decide) (by decide)⟩
